import Mathlib

/-!
Shallow embedding of the `ecobeeauth` credential subsystem
(`src/ecobeeauth/auth.go` of `rfratto/ecobee_exporter`).

Time is modelled as `Int` seconds.  The Go zero `time.Time` (the value for
which `IsZero` holds) is modelled as `Option.none`, every assigned instant as
`Option.some t`; `time.Now()` always yields an assigned instant.  `time.Second`
is `1` and `time.Minute` is `60`.

The subsystem stores an `oauth2.Token` from `golang.org/x/oauth2`.  The
methods of that library used by the code are embedded here as well:
`Token.Valid` reports a non-empty access token that is not expired, and
`expired` treats a zero expiry as never expiring and otherwise compares
`Expiry - expiryDelta` against the current time, with the library constant
`expiryDelta = 10 seconds`.  The `raw` extras field of `oauth2.Token` is
unexported, so `encoding/json` serializes only the four tagged fields
(`access_token`, `token_type`, `refresh_token`, `expiry`); this is reflected
in `encodeToken` below.

Effects are made explicit: the cache file is a `CacheFile` value threaded
through the operations, the network is an oracle mapping the `code` form
parameter of a token-exchange request to the response, and each operation
reports how many exchange requests it issued.
-/

namespace EcobeeAuth

/-- Library constant of `golang.org/x/oauth2`: a token is treated as expired
`expiryDelta` (10 seconds) before its stated expiry. -/
def expiryDelta : Int := 10

/-- `time.Minute` in seconds. -/
def minute : Int := 60

/-- The timeout ceiling (seconds) `Token()` imposes on its internal refresh:
`context.WithTimeout(context.Background(), time.Second*5)`. -/
def tokenRefreshTimeout : Int := 5

/-- `oauth2.Token`: access token, token type, refresh token, expiry
(`none` is the zero `time.Time`), and the unexported `raw` extras, of which
this subsystem only ever stores the `"scope"` string. -/
structure OAToken where
  accessToken : String
  tokenType : String
  refreshToken : String
  expiry : Option Int
  extra : List (String × String)
deriving Repr, DecidableEq

/-- `oauth2.Token.expired`: a zero expiry never expires; otherwise the token
counts as expired from `expiryDelta` seconds before `expiry`. -/
def OAToken.expired (t : OAToken) (now : Int) : Bool :=
  match t.expiry with
  | none => false
  | some e => decide (e - expiryDelta < now)

/-- `oauth2.Token.Valid` on a non-nil token: non-empty access token and not
expired. -/
def OAToken.valid (t : OAToken) (now : Int) : Bool :=
  t.accessToken != "" && !(t.expired now)

/-- The JSON body of a successful token-exchange response, as read by
`token.UnmarshalJSON`: the embedded `oauth2.Token` fields plus the extra
`expires_in` (integer) and `scope` (string) fields. -/
structure ExchangeResponse where
  access_token : String
  token_type : String
  refresh_token : String
  expires_in : Int
  scope : String
deriving Repr, DecidableEq

/-- `token.UnmarshalJSON`: decode the embedded token fields, then overwrite
`Expiry` with `time.Now().Add(time.Minute * time.Duration(f.ExpiresIn-1))`
(minutes, with one minute subtracted as safety margin) and attach the `scope`
string as the sole extra via `WithExtra`. -/
def unmarshalToken (now : Int) (r : ExchangeResponse) : OAToken :=
  { accessToken := r.access_token
    tokenType := r.token_type
    refreshToken := r.refresh_token
    expiry := some (now + minute * (r.expires_in - 1))
    extra := [("scope", r.scope)] }

/-- The four JSON-tagged fields of `oauth2.Token`, i.e. what
`json.NewEncoder(f).Encode(ts.tok)` writes to the cache file and what
`json.NewDecoder(f).Decode(&tok)` reads back at construction. -/
structure CachedToken where
  access_token : String
  token_type : String
  refresh_token : String
  expiry : Option Int
deriving Repr, DecidableEq

/-- JSON-encoding an `oauth2.Token`: the unexported `raw` extras field is not
serialized, only the four tagged fields are. -/
def encodeToken (t : OAToken) : CachedToken :=
  ⟨t.accessToken, t.tokenType, t.refreshToken, t.expiry⟩

/-- JSON-decoding a cache file into a fresh `oauth2.Token`: the four tagged
fields are filled in and the extras field stays at its zero value. -/
def decodeCached (c : CachedToken) : OAToken :=
  ⟨c.access_token, c.token_type, c.refresh_token, c.expiry, []⟩

/-- The state of the cache file as the subsystem can observe it through
`os.Open`, `os.OpenFile` and JSON decoding. -/
inductive CacheFile
  | absent
  | unreadable
  | corrupt
  | stored (c : CachedToken)
deriving Repr, DecidableEq

/-- The `TokenSource` struct: client identifier, held token (`none` until one
is saved), cache file path.  The mutex is represented by the fact that every
operation below is a whole-body atomic step (the lock is held for the entire
body of `Token` and `SaveToken`). -/
structure TokenSource where
  clientID : String
  tok : Option OAToken
  cacheFile : String
deriving Repr, DecidableEq

/-- Result of `NewTokenSource`: the constructed source, or the I/O error from
`os.Open`. -/
inductive ConstructResult
  | ok (ts : TokenSource)
  | ioError
deriving Repr, DecidableEq

/-- `NewTokenSource`: with an empty cache path, start with no token.  With a
path: a missing file is fine (no token); any other open error is returned to
the caller; a file that opens but fails to decode is ignored (no token); a
file that decodes installs the decoded token. -/
def NewTokenSource (clientID : String) (cacheFile : String) (file : CacheFile) :
    ConstructResult :=
  if cacheFile = "" then .ok ⟨clientID, none, cacheFile⟩
  else
    match file with
    | .absent => .ok ⟨clientID, none, cacheFile⟩
    | .unreadable => .ioError
    | .corrupt => .ok ⟨clientID, none, cacheFile⟩
    | .stored c => .ok ⟨clientID, some (decodeCached c), cacheFile⟩

/-- The network as seen through `getToken`: the oracle maps the `code` form
parameter of the exchange request to either an error (transport failure,
non-200 status, or undecodable body, with the stage recorded in the message)
or the decoded response body.  Consulting the oracle is issuing one exchange
request. -/
def NetOracle : Type := String → Except String ExchangeResponse

/-- `getToken` (the private network call): issue the exchange request carrying
the given `code` parameter and decode the body via `token.UnmarshalJSON`. -/
def getTokenNet (net : NetOracle) (now : Int) (code : String) :
    Except String OAToken :=
  match net code with
  | .error e => .error e
  | .ok r => .ok (unmarshalToken now r)

/-- `RefreshToken`: fail immediately (without touching the network) when the
token has no refresh token; otherwise run the exchange with the refresh token
as the `code` parameter.  The second component counts exchange requests
issued (0 or 1). -/
def RefreshToken (net : NetOracle) (now : Int) (tok : OAToken) :
    Except String OAToken × Nat :=
  if tok.refreshToken = "" then (.error "token did not have a refresh", 0)
  else (getTokenNet net now tok.refreshToken, 1)

/-- Result of `saveToken`: updated source, updated cache file, and the error
returned (if the cache write failed). -/
structure SaveResult where
  ts : TokenSource
  file : CacheFile
  err : Option String
deriving Repr, DecidableEq

/-- `saveToken`: set the in-memory token first; then, when a cache path is
configured, truncate-and-rewrite the cache file.  `writeOk` says whether
`os.OpenFile` with `O_CREATE|O_TRUNC|O_RDWR` succeeds on the path; on failure
the open error is wrapped and returned, but the in-memory token stays
updated. -/
def saveToken (ts : TokenSource) (file : CacheFile) (writeOk : Bool)
    (tok : OAToken) : SaveResult :=
  let updated : TokenSource := { ts with tok := some tok }
  if ts.cacheFile = "" then ⟨updated, file, none⟩
  else if writeOk then ⟨updated, .stored (encodeToken tok), none⟩
  else ⟨updated, file, some "failed to cache file"⟩

instance {ε α : Type} [DecidableEq ε] [DecidableEq α] : DecidableEq (Except ε α) :=
  fun a b =>
    match a, b with
    | .ok x, .ok y =>
      if h : x = y then .isTrue (by rw [h]) else .isFalse (by intro hc; cases hc; exact h rfl)
    | .error x, .error y =>
      if h : x = y then .isTrue (by rw [h]) else .isFalse (by intro hc; cases hc; exact h rfl)
    | .ok _, .error _ => .isFalse (by intro hc; cases hc)
    | .error _, .ok _ => .isFalse (by intro hc; cases hc)

/-- Result of one `Token()` call: the returned token or error, the resulting
source and cache file, the number of exchange requests issued, and the timeout
ceiling imposed on each refresh attempt. -/
structure TokenCallResult where
  ret : Except String OAToken
  ts : TokenSource
  file : CacheFile
  netCalls : Nat
  refreshTimeouts : List Int
deriving Repr, DecidableEq

/-- `Token()`: under the lock, fail when no token is held; return the held
token when it is still valid; otherwise refresh it with a 5-second timeout,
and on success commit the new token via `saveToken`, ignoring any cache-write
error, and return the (now updated) held token; on refresh failure return the
wrapped error and leave the held token in place. -/
def tokenCall (net : NetOracle) (now : Int) (writeOk : Bool)
    (ts : TokenSource) (file : CacheFile) : TokenCallResult :=
  match ts.tok with
  | none => ⟨.error "token not yet available", ts, file, 0, []⟩
  | some t =>
    if t.valid now then ⟨.ok t, ts, file, 0, []⟩
    else
      match RefreshToken net now t with
      | (.error e, n) =>
        ⟨.error ("could not refresh token: " ++ e), ts, file, n,
          List.replicate n tokenRefreshTimeout⟩
      | (.ok newTok, n) =>
        let s := saveToken ts file writeOk newTok
        ⟨.ok newTok, s.ts, s.file, n, List.replicate n tokenRefreshTimeout⟩

/-- `SaveToken` (public): takes the lock and delegates to `saveToken`. -/
def SaveToken (ts : TokenSource) (file : CacheFile) (writeOk : Bool)
    (tok : OAToken) : SaveResult :=
  saveToken ts file writeOk tok

/-- An HTTP request as built by `getToken` and `GetPin`: method, URL pieces,
the Content-Type header when set, and the request body. -/
structure HttpRequest where
  method : String
  scheme : String
  host : String
  path : String
  query : List (String × String)
  contentType : Option String
  body : Option String
deriving Repr, DecidableEq

/-- `url.Values.Encode` orders parameters by sorted key; for the exchange
request the keys sort as `client_id`, `code`, `grant_type`. -/
def exchangeQuery (clientID : String) (code : String) : List (String × String) :=
  [("client_id", clientID), ("code", code), ("grant_type", "ecobeePin")]

/-- The request `getToken` issues: an HTTPS POST to `api.ecobee.com/token`
whose query string carries the encoded form values, with the Content-Type
header set to `application/x-www-form-urlencoded` and a nil body. -/
def exchangeRequest (clientID : String) (code : String) : HttpRequest :=
  { method := "POST"
    scheme := "https"
    host := "api.ecobee.com"
    path := "token"
    query := exchangeQuery clientID code
    contentType := some "application/x-www-form-urlencoded"
    body := none }

/-- The request issued by `GetToken ctx code`. -/
def GetTokenRequest (ts : TokenSource) (code : String) : HttpRequest :=
  exchangeRequest ts.clientID code

/-- The request issued by `RefreshToken` when the refresh token is non-empty:
the refresh token is substituted as the `code` parameter. -/
def RefreshTokenRequest (ts : TokenSource) (tok : OAToken) : HttpRequest :=
  exchangeRequest ts.clientID tok.refreshToken

/-- Result of running several serialized `Token()` calls. -/
structure MultiCallResult where
  results : List (Except String OAToken)
  ts : TokenSource
  file : CacheFile
  netCalls : Nat
deriving Repr, DecidableEq

/-- N concurrent callers of `Token()` serialize behind the per-source mutex,
which is held across the whole body including the network call; their joint
execution is therefore the sequential composition of N `tokenCall` steps on
the evolving state. -/
def runCalls (net : NetOracle) (now : Int) (writeOk : Bool) :
    Nat → TokenSource → CacheFile → MultiCallResult
  | 0, ts, file => ⟨[], ts, file, 0⟩
  | n + 1, ts, file =>
    let r := tokenCall net now writeOk ts file
    let rest := runCalls net now writeOk n r.ts r.file
    ⟨r.ret :: rest.results, rest.ts, rest.file, r.netCalls + rest.netCalls⟩

/-! Theorems about the embedded subsystem. -/

/-- C3: decoding an exchange-response body with integer `expires_in` and
string `scope` produces a credential whose expiry equals
now + (expires_in - 1) minutes (the one-minute margin is subtracted and the
quantity is interpreted in minutes, not seconds) and whose sole extra field
is "scope" mapped to the response scope string. -/
theorem exchange_decode_minutes_and_scope (now : Int) (r : ExchangeResponse) :
    (unmarshalToken now r).expiry = some (now + (r.expires_in - 1) * minute) ∧
    (unmarshalToken now r).extra = [("scope", r.scope)] := by
  refine ⟨?_, rfl⟩
  simp [unmarshalToken, Int.mul_comm]

/-- C4 counterexample: decoding an exchange response with `expires_in = 61`
at time 0 yields expiry 3600 (now + 60 minutes), not 60 (now + 60 seconds):
the subtracted margin is one minute and the remaining quantity is counted in
minutes. -/
theorem exchange_decode_61_not_sixty_seconds :
    (unmarshalToken 0 ⟨"tok", "Bearer", "ref", 61, "smartRead"⟩).expiry ≠ some 60 ∧
    (unmarshalToken 0 ⟨"tok", "Bearer", "ref", 61, "smartRead"⟩).expiry = some 3600 := by
  decide

/-- C4 amended: decoding an exchange response with `expires_in = 61` produces
a credential whose expiry is exactly now + 60 minutes (now + 3600 seconds). -/
theorem exchange_decode_61_minute_margin (now : Int) (r : ExchangeResponse)
    (h : r.expires_in = 61) :
    (unmarshalToken now r).expiry = some (now + 60 * minute) := by
  simp [unmarshalToken, h, minute]

/-- Witness for `exchange_decode_61_minute_margin` at a concrete response. -/
theorem exchange_decode_61_minute_margin_witness :
    (unmarshalToken 7 ⟨"a", "Bearer", "b", 61, "s"⟩).expiry = some (7 + 60 * minute) :=
  exchange_decode_61_minute_margin 7 ⟨"a", "Bearer", "b", 61, "s"⟩ rfl

/-- C1 counterexample: a held credential with non-empty access token whose
expiry (5) lies strictly in the future of the current time (0) is nonetheless
refreshed by `Token()` — one exchange request is issued and the held
credential is not returned unchanged — because the oauth2 library counts a
token as expired from 10 seconds before its expiry. -/
theorem token_soon_expiry_triggers_refresh :
    (0 : Int) < 5 ∧
    (tokenCall (fun _ => .error "down") 0 true
      ⟨"cid", some ⟨"at", "Bearer", "rt", some 5, []⟩, ""⟩ .absent).netCalls ≠ 0 ∧
    (tokenCall (fun _ => .error "down") 0 true
      ⟨"cid", some ⟨"at", "Bearer", "rt", some 5, []⟩, ""⟩ .absent).ret ≠
      .ok ⟨"at", "Bearer", "rt", some 5, []⟩ := by
  decide

/-- C1 amended: for every held credential with a non-empty access token whose
expiry is at least `expiryDelta` (10 seconds) in the future, `Token()` returns
that credential unchanged, leaves all state untouched, and issues no network
request. -/
theorem token_future_valid_margin_no_refresh (net : NetOracle) (now : Int)
    (writeOk : Bool) (ts : TokenSource) (file : CacheFile) (t : OAToken) (e : Int)
    (htok : ts.tok = some t) (hacc : t.accessToken ≠ "")
    (hexp : t.expiry = some e) (hfut : now + expiryDelta ≤ e) :
    tokenCall net now writeOk ts file = ⟨.ok t, ts, file, 0, []⟩ := by
  have hfut10 : now + 10 ≤ e := by simpa [expiryDelta] using hfut
  have hvalid : t.valid now = true := by
    simp [OAToken.valid, OAToken.expired, hexp, hacc, expiryDelta]
    omega
  simp [tokenCall, htok, hvalid]

/-- Witness for `token_future_valid_margin_no_refresh` at concrete inputs. -/
theorem token_future_valid_margin_no_refresh_witness :
    tokenCall (fun _ => .error "down") 0 true
        ⟨"cid", some ⟨"at", "Bearer", "rt", some 10, []⟩, ""⟩ .absent =
      ⟨.ok ⟨"at", "Bearer", "rt", some 10, []⟩,
        ⟨"cid", some ⟨"at", "Bearer", "rt", some 10, []⟩, ""⟩, .absent, 0, []⟩ :=
  token_future_valid_margin_no_refresh (fun _ => .error "down") 0 true
    ⟨"cid", some ⟨"at", "Bearer", "rt", some 10, []⟩, ""⟩ .absent
    ⟨"at", "Bearer", "rt", some 10, []⟩ 10 rfl (by decide) rfl (by decide)

/-- C2 counterexample: a held credential that is expired (expiry 20, now 100)
but has an empty refresh token causes `Token()` to issue zero refresh
exchanges, not exactly one: `RefreshToken` fails before touching the network
and `Token()` returns the wrapped error. -/
theorem token_expired_no_refresh_token_zero_exchanges :
    (⟨"at", "Bearer", "", some 20, []⟩ : OAToken).valid 100 = false ∧
    (tokenCall (fun _ => .error "down") 100 true
      ⟨"cid", some ⟨"at", "Bearer", "", some 20, []⟩, ""⟩ .absent).netCalls = 0 ∧
    (tokenCall (fun _ => .error "down") 100 true
      ⟨"cid", some ⟨"at", "Bearer", "", some 20, []⟩, ""⟩ .absent).ret =
      .error "could not refresh token: token did not have a refresh" := by
  decide

/-- C2 amended: for every held credential that is expired (invalid) and has a
non-empty refresh token, `Token()` performs exactly one refresh exchange under
the 5-second timeout ceiling; on exchange success the decoded credential
replaces the held one and is returned — for every cache-write outcome,
including failure — and on exchange failure `Token()` returns the wrapped
error and leaves the held credential and cache file unchanged. -/
theorem token_expired_refresh_once (net : NetOracle) (now : Int)
    (writeOk : Bool) (ts : TokenSource) (file : CacheFile) (t : OAToken)
    (htok : ts.tok = some t) (hvalid : t.valid now = false)
    (href : t.refreshToken ≠ "") :
    (tokenCall net now writeOk ts file).netCalls = 1 ∧
    (tokenCall net now writeOk ts file).refreshTimeouts = [tokenRefreshTimeout] ∧
    (∀ resp, net t.refreshToken = .ok resp →
      (tokenCall net now writeOk ts file).ret = .ok (unmarshalToken now resp) ∧
      (tokenCall net now writeOk ts file).ts.tok = some (unmarshalToken now resp)) ∧
    (∀ msg, net t.refreshToken = .error msg →
      (tokenCall net now writeOk ts file).ret =
        .error ("could not refresh token: " ++ msg) ∧
      (tokenCall net now writeOk ts file).ts = ts ∧
      (tokenCall net now writeOk ts file).file = file) := by
  have hre : RefreshToken net now t = (getTokenNet net now t.refreshToken, 1) := by
    simp [RefreshToken, href]
  cases hnet : net t.refreshToken with
  | error msg =>
    have hcall : tokenCall net now writeOk ts file =
        ⟨.error ("could not refresh token: " ++ msg), ts, file, 1,
          [tokenRefreshTimeout]⟩ := by
      simp [tokenCall, htok, hvalid, hre, getTokenNet, hnet, List.replicate]
    refine ⟨by rw [hcall], by rw [hcall], ?_, ?_⟩
    · intro resp h2
      cases h2
    · intro m h2
      cases h2
      exact ⟨by rw [hcall], by rw [hcall], by rw [hcall]⟩
  | ok resp =>
    have hcall : tokenCall net now writeOk ts file =
        ⟨.ok (unmarshalToken now resp),
          (saveToken ts file writeOk (unmarshalToken now resp)).ts,
          (saveToken ts file writeOk (unmarshalToken now resp)).file, 1,
          [tokenRefreshTimeout]⟩ := by
      simp [tokenCall, htok, hvalid, hre, getTokenNet, hnet, List.replicate]
    have hsave : (saveToken ts file writeOk (unmarshalToken now resp)).ts.tok =
        some (unmarshalToken now resp) := by
      unfold saveToken
      split
      · rfl
      · split <;> rfl
    refine ⟨by rw [hcall], by rw [hcall], ?_, ?_⟩
    · intro r2 h2
      cases h2
      exact ⟨by rw [hcall], by rw [hcall]; exact hsave⟩
    · intro m h2
      cases h2

/-- Witness for `token_expired_refresh_once`: a concrete expired credential
with a refresh token, refreshed through a concrete successful exchange, with
the cache write failing. -/
theorem token_expired_refresh_once_witness :
    (tokenCall (fun _ => .ok ⟨"new", "Bearer", "nr", 61, "sc"⟩) 100 false
      ⟨"cid", some ⟨"at", "Bearer", "rt", some 20, []⟩, "/tmp/cache"⟩ .absent).netCalls = 1 :=
  (token_expired_refresh_once (fun _ => .ok ⟨"new", "Bearer", "nr", 61, "sc"⟩) 100 false
    ⟨"cid", some ⟨"at", "Bearer", "rt", some 20, []⟩, "/tmp/cache"⟩ .absent
    ⟨"at", "Bearer", "rt", some 20, []⟩ rfl (by decide) (by decide)).1

/-- Helper: serialized `Token()` calls on a source holding a currently valid
token return that token every time, change nothing and issue no network
requests. -/
theorem runCalls_valid_token (net : NetOracle) (now : Int) (writeOk : Bool)
    (n : Nat) (ts : TokenSource) (file : CacheFile) (t : OAToken)
    (htok : ts.tok = some t) (hvalid : t.valid now = true) :
    runCalls net now writeOk n ts file =
      ⟨List.replicate n (.ok t), ts, file, 0⟩ := by
  induction n with
  | zero => simp [runCalls]
  | succ k ih =>
    have hcall : tokenCall net now writeOk ts file = ⟨.ok t, ts, file, 0, []⟩ := by
      simp [tokenCall, htok, hvalid]
    simp [runCalls, hcall, ih, List.replicate]

/-- C5 counterexample: two serialized `Token()` callers on an expired held
credential whose refresh keeps failing issue two exchange requests, not
exactly one; each caller triggers its own refresh attempt (the callers do
observe the same wrapped error). -/
theorem serialized_failing_refresh_two_exchanges :
    (runCalls (fun _ => .error "server down") 100 true 2
      ⟨"cid", some ⟨"at", "Bearer", "rt", some 20, []⟩, ""⟩ .absent).netCalls = 2 ∧
    (runCalls (fun _ => .error "server down") 100 true 2
      ⟨"cid", some ⟨"at", "Bearer", "rt", some 20, []⟩, ""⟩ .absent).netCalls ≠ 1 ∧
    (runCalls (fun _ => .error "server down") 100 true 2
      ⟨"cid", some ⟨"at", "Bearer", "rt", some 20, []⟩, ""⟩ .absent).results =
      List.replicate 2 (.error "could not refresh token: server down") := by
  decide

/-- C5 amended: N+1 `Token()` callers on an expired held credential with a
non-empty refresh token serialize behind the per-source lock (modelled as
sequential composition, so at most one refresh is in flight at a time); when
the exchange succeeds and the decoded credential is valid at call time,
exactly one exchange request reaches the network and every caller observes
that same credential. -/
theorem serialized_token_calls_single_flight (net : NetOracle) (now : Int)
    (writeOk : Bool) (n : Nat) (ts : TokenSource) (file : CacheFile)
    (t : OAToken) (resp : ExchangeResponse)
    (htok : ts.tok = some t) (hvalid : t.valid now = false)
    (href : t.refreshToken ≠ "") (hnet : net t.refreshToken = .ok resp)
    (hnewvalid : (unmarshalToken now resp).valid now = true) :
    (runCalls net now writeOk (n + 1) ts file).netCalls = 1 ∧
    (runCalls net now writeOk (n + 1) ts file).results =
      List.replicate (n + 1) (.ok (unmarshalToken now resp)) := by
  have hre : RefreshToken net now t = (getTokenNet net now t.refreshToken, 1) := by
    simp [RefreshToken, href]
  have hcall : tokenCall net now writeOk ts file =
      ⟨.ok (unmarshalToken now resp),
        (saveToken ts file writeOk (unmarshalToken now resp)).ts,
        (saveToken ts file writeOk (unmarshalToken now resp)).file, 1,
        [tokenRefreshTimeout]⟩ := by
    simp [tokenCall, htok, hvalid, hre, getTokenNet, hnet]
  have hsave : (saveToken ts file writeOk (unmarshalToken now resp)).ts.tok =
      some (unmarshalToken now resp) := by
    unfold saveToken
    split
    · rfl
    · split <;> rfl
  have hrest := runCalls_valid_token net now writeOk n
    (saveToken ts file writeOk (unmarshalToken now resp)).ts
    (saveToken ts file writeOk (unmarshalToken now resp)).file
    (unmarshalToken now resp) hsave hnewvalid
  simp [runCalls, hcall, hrest, List.replicate]

/-- Witness for `serialized_token_calls_single_flight`: two concrete
serialized callers on an expired credential with a successful exchange. -/
theorem serialized_token_calls_single_flight_witness :
    (runCalls (fun _ => .ok ⟨"new", "Bearer", "nr", 61, "sc"⟩) 100 true 2
      ⟨"cid", some ⟨"at", "Bearer", "rt", some 20, []⟩, "/tmp/cache"⟩ .absent).netCalls = 1 :=
  (serialized_token_calls_single_flight (fun _ => .ok ⟨"new", "Bearer", "nr", 61, "sc"⟩)
    100 true 1 ⟨"cid", some ⟨"at", "Bearer", "rt", some 20, []⟩, "/tmp/cache"⟩ .absent
    ⟨"at", "Bearer", "rt", some 20, []⟩ ⟨"new", "Bearer", "nr", 61, "sc"⟩
    rfl (by decide) (by decide) rfl (by decide)).1

/-- C6: construction with a non-empty cache path: a missing file yields a
source with no credential whose `Token()` fails with the not-authorized
error and touches no network; a file that opens but fails to parse also
yields a source with no credential; a file that cannot be opened for any
other reason fails construction with the I/O error. -/
theorem construction_cache_outcomes (clientID : String) (cacheFile : String)
    (file : CacheFile) (hpath : cacheFile ≠ "") :
    (file = .absent →
      NewTokenSource clientID cacheFile file = .ok ⟨clientID, none, cacheFile⟩ ∧
      ∀ (net : NetOracle) (now : Int) (writeOk : Bool) (f2 : CacheFile),
        (tokenCall net now writeOk ⟨clientID, none, cacheFile⟩ f2).ret =
          .error "token not yet available" ∧
        (tokenCall net now writeOk ⟨clientID, none, cacheFile⟩ f2).netCalls = 0) ∧
    (file = .corrupt →
      NewTokenSource clientID cacheFile file = .ok ⟨clientID, none, cacheFile⟩) ∧
    (file = .unreadable → NewTokenSource clientID cacheFile file = .ioError) := by
  refine ⟨?_, ?_, ?_⟩
  · intro h
    subst h
    refine ⟨by simp [NewTokenSource, hpath], ?_⟩
    intro net now writeOk f2
    exact ⟨by simp [tokenCall], by simp [tokenCall]⟩
  · intro h
    subst h
    simp [NewTokenSource, hpath]
  · intro h
    subst h
    simp [NewTokenSource, hpath]

/-- Witness for `construction_cache_outcomes`: concrete path and an
unreadable cache file. -/
theorem construction_cache_outcomes_witness :
    NewTokenSource "cid" "/tmp/cache" .unreadable = .ioError :=
  (construction_cache_outcomes "cid" "/tmp/cache" .unreadable (by decide)).2.2 rfl

/-- C7 counterexample: saving a credential that carries the scope extra and
reconstructing a source from the written cache yields a `Token()` result that
differs from the saved credential — the extras map is not serialized, so the
scope mapping does not survive the write-then-load cycle. -/
theorem roundtrip_drops_scope_extra :
    NewTokenSource "cid" "/tmp/c"
        (SaveToken ⟨"cid", none, "/tmp/c"⟩ .absent true
          ⟨"at", "Bearer", "rt", some 1000000, [("scope", "smartRead,smartWrite")]⟩).file =
      .ok ⟨"cid", some ⟨"at", "Bearer", "rt", some 1000000, []⟩, "/tmp/c"⟩ ∧
    (tokenCall (fun _ => .error "down") 0 true
        ⟨"cid", some ⟨"at", "Bearer", "rt", some 1000000, []⟩, "/tmp/c"⟩
        (SaveToken ⟨"cid", none, "/tmp/c"⟩ .absent true
          ⟨"at", "Bearer", "rt", some 1000000, [("scope", "smartRead,smartWrite")]⟩).file).ret =
      .ok ⟨"at", "Bearer", "rt", some 1000000, []⟩ ∧
    (⟨"at", "Bearer", "rt", some 1000000, []⟩ : OAToken) ≠
      ⟨"at", "Bearer", "rt", some 1000000, [("scope", "smartRead,smartWrite")]⟩ := by
  decide

/-- C7 amended: saving a credential with non-empty access token whose expiry
is at least the 10-second margin in the future and reconstructing a source
from the written cache yields a `Token()` result equal to the saved credential
in access token, token type, refresh token, and expiry, with the extras map
empty (the scope extra is not serialized to the cache), and issues no network
call. -/
theorem roundtrip_preserves_all_but_extra (ts : TokenSource) (file : CacheFile)
    (c : OAToken) (net : NetOracle) (now : Int) (e : Int) (writeOk2 : Bool)
    (hpath : ts.cacheFile ≠ "") (hacc : c.accessToken ≠ "")
    (hexp : c.expiry = some e) (hfut : now + expiryDelta ≤ e) :
    NewTokenSource ts.clientID ts.cacheFile (SaveToken ts file true c).file =
      .ok ⟨ts.clientID,
        some ⟨c.accessToken, c.tokenType, c.refreshToken, c.expiry, []⟩,
        ts.cacheFile⟩ ∧
    (tokenCall net now writeOk2
        ⟨ts.clientID, some ⟨c.accessToken, c.tokenType, c.refreshToken, c.expiry, []⟩,
          ts.cacheFile⟩
        (SaveToken ts file true c).file).ret =
      .ok ⟨c.accessToken, c.tokenType, c.refreshToken, c.expiry, []⟩ ∧
    (tokenCall net now writeOk2
        ⟨ts.clientID, some ⟨c.accessToken, c.tokenType, c.refreshToken, c.expiry, []⟩,
          ts.cacheFile⟩
        (SaveToken ts file true c).file).netCalls = 0 := by
  have hfut10 : now + 10 ≤ e := by simpa [expiryDelta] using hfut
  have hfile : (SaveToken ts file true c).file = .stored (encodeToken c) := by
    simp [SaveToken, saveToken, hpath]
  have hvalid :
      (⟨c.accessToken, c.tokenType, c.refreshToken, c.expiry, []⟩ : OAToken).valid now
        = true := by
    simp [OAToken.valid, OAToken.expired, hexp, hacc, expiryDelta]
    omega
  refine ⟨?_, ?_, ?_⟩
  · rw [hfile]
    simp [NewTokenSource, hpath, decodeCached, encodeToken]
  · simp [tokenCall, hvalid]
  · simp [tokenCall, hvalid]

/-- Witness for `roundtrip_preserves_all_but_extra` at concrete inputs. -/
theorem roundtrip_preserves_all_but_extra_witness :
    NewTokenSource "cid" "/tmp/rt"
        (SaveToken ⟨"cid", none, "/tmp/rt"⟩ .absent true
          ⟨"A", "Bearer", "R", some 50, [("scope", "sc")]⟩).file =
      .ok ⟨"cid", some ⟨"A", "Bearer", "R", some 50, []⟩, "/tmp/rt"⟩ :=
  (roundtrip_preserves_all_but_extra ⟨"cid", none, "/tmp/rt"⟩ .absent
    ⟨"A", "Bearer", "R", some 50, [("scope", "sc")]⟩ (fun _ => .error "down") 0 50 true
    (by decide) (by decide) rfl (by decide)).1

/-- C8 counterexample: the exchange request issued by `GetToken` has an empty
body — the form parameters are carried in the URL query string, not in the
request body. -/
theorem exchange_request_empty_body :
    (GetTokenRequest ⟨"cid", none, ""⟩ "thecode").body = none ∧
    (GetTokenRequest ⟨"cid", none, ""⟩ "thecode").query =
      [("client_id", "cid"), ("code", "thecode"), ("grant_type", "ecobeePin")] := by
  decide

/-- C8 amended: every token-exchange request issued by `GetToken`, and by
`RefreshToken` when the refresh token is non-empty, is an HTTPS POST to
`api.ecobee.com/token` with the Content-Type header set to
`application/x-www-form-urlencoded`, carrying the encoded parameters
`grant_type=ecobeePin`, `client_id` and `code` in the URL query string and an
empty request body. -/
theorem exchange_request_query_shape (ts : TokenSource) (code : String)
    (tok : OAToken) :
    GetTokenRequest ts code =
      ⟨"POST", "https", "api.ecobee.com", "token", exchangeQuery ts.clientID code,
        some "application/x-www-form-urlencoded", none⟩ ∧
    (tok.refreshToken ≠ "" →
      RefreshTokenRequest ts tok =
        ⟨"POST", "https", "api.ecobee.com", "token",
          exchangeQuery ts.clientID tok.refreshToken,
          some "application/x-www-form-urlencoded", none⟩) :=
  ⟨rfl, fun _ => rfl⟩

/-- Witness for `exchange_request_query_shape` at a concrete source and a
credential with a non-empty refresh token. -/
theorem exchange_request_query_shape_witness :
    RefreshTokenRequest ⟨"cid", none, ""⟩ ⟨"a", "Bearer", "r", none, []⟩ =
      ⟨"POST", "https", "api.ecobee.com", "token", exchangeQuery "cid" "r",
        some "application/x-www-form-urlencoded", none⟩ :=
  (exchange_request_query_shape ⟨"cid", none, ""⟩ "x" ⟨"a", "Bearer", "r", none, []⟩).2
    (by decide)

/-- C9 counterexample: a cache file that decodes to a credential with no
expiry is installed verbatim at construction, so the subsystem does hold an
in-memory credential whose expiry is unset. -/
theorem cache_load_installs_expiryless_credential :
    NewTokenSource "cid" "/tmp/e" (.stored ⟨"at", "Bearer", "rt", none⟩) =
      .ok ⟨"cid", some ⟨"at", "Bearer", "rt", none, []⟩, "/tmp/e"⟩ ∧
    (⟨"at", "Bearer", "rt", none, []⟩ : OAToken).expiry = none := by
  decide

/-- C9 amended: every credential the subsystem itself mints — by the exchange
decode, hence by `getToken`, `GetToken`, `RefreshToken` and the refresh path
of `Token()` — has its expiry set; credentials loaded from the cache file at
construction or passed to `SaveToken` are installed verbatim and may lack
expiry. -/
theorem minted_credentials_expiry_set (now : Int) :
    (∀ r : ExchangeResponse, (unmarshalToken now r).expiry ≠ none) ∧
    (∀ (net : NetOracle) (code : String) (t : OAToken),
      getTokenNet net now code = .ok t → t.expiry ≠ none) ∧
    (∀ (net : NetOracle) (tok t : OAToken) (n : Nat),
      RefreshToken net now tok = (.ok t, n) → t.expiry ≠ none) := by
  have hget : ∀ (net : NetOracle) (code : String) (t : OAToken),
      getTokenNet net now code = .ok t → t.expiry ≠ none := by
    intro net code t h
    cases hnet : net code with
    | error e =>
      simp [getTokenNet, hnet] at h
    | ok r2 =>
      simp [getTokenNet, hnet] at h
      subst h
      simp [unmarshalToken]
  refine ⟨fun r => by simp [unmarshalToken], hget, ?_⟩
  intro net tok t n h
  by_cases hrt : tok.refreshToken = ""
  · simp [RefreshToken, hrt] at h
  · unfold RefreshToken at h
    rw [if_neg hrt] at h
    injection h with h1 h2
    exact hget net tok.refreshToken t h1

/-- Witness for `minted_credentials_expiry_set`: a concrete refresh through a
concrete network response yields a credential with expiry set. -/
theorem minted_credentials_expiry_set_witness :
    (⟨"a", "Bearer", "r", some 3605, [("scope", "s")]⟩ : OAToken).expiry ≠ none :=
  (minted_credentials_expiry_set 5).2.2 (fun _ => .ok ⟨"a", "Bearer", "r", 61, "s"⟩)
    ⟨"x", "B", "rr", some 0, []⟩ ⟨"a", "Bearer", "r", some 3605, [("scope", "s")]⟩ 1
    (by decide)

/-- C10: a cache file decoding to a credential with non-empty access token
and zero (unset) expiry is installed at construction, and every subsequent
`Token()` call, at every time, returns that credential unchanged with no
refresh and no network call: a zero expiry is treated as never expiring. -/
theorem zero_expiry_credential_never_refreshed (clientID : String)
    (cacheFile : String) (c : CachedToken) (hpath : cacheFile ≠ "")
    (hexp : c.expiry = none) (hacc : c.access_token ≠ "") :
    NewTokenSource clientID cacheFile (.stored c) =
      .ok ⟨clientID, some (decodeCached c), cacheFile⟩ ∧
    ∀ (net : NetOracle) (now : Int) (writeOk : Bool) (file : CacheFile),
      tokenCall net now writeOk ⟨clientID, some (decodeCached c), cacheFile⟩ file =
        ⟨.ok (decodeCached c), ⟨clientID, some (decodeCached c), cacheFile⟩, file, 0, []⟩ := by
  have hvalid : ∀ now : Int, (decodeCached c).valid now = true := by
    intro now
    simp [OAToken.valid, OAToken.expired, decodeCached, hexp, hacc]
  refine ⟨by simp [NewTokenSource, hpath], ?_⟩
  intro net now writeOk file
  simp [tokenCall, hvalid now]

/-- Witness for `zero_expiry_credential_never_refreshed` at concrete inputs. -/
theorem zero_expiry_credential_never_refreshed_witness :
    NewTokenSource "cid" "/tmp/z" (.stored ⟨"za", "Bearer", "zr", none⟩) =
      .ok ⟨"cid", some (decodeCached ⟨"za", "Bearer", "zr", none⟩), "/tmp/z"⟩ :=
  (zero_expiry_credential_never_refreshed "cid" "/tmp/z" ⟨"za", "Bearer", "zr", none⟩
    (by decide) rfl (by decide)).1

end EcobeeAuth
